import Mathlib

/-!
Verification development for the Microsoft Graph MCP server core
(`src/graph-tools.ts` and `src/composite-tools.ts`).

The TypeScript source is shallowly embedded: JSON values are modelled by the
inductive `Json`; JavaScript exceptions by `Except`; the network collaborator
(`graphClient.graphRequest` / `graphClient.makeRequest`) and the builtin
`JSON.parse` are oracle function parameters (their partiality made explicit);
builtins such as `encodeURIComponent`, `String.prototype.replace` (string
pattern, first occurrence), `Array.prototype.join`, the WHATWG `URL`
constructor (restricted to absolute http/https URLs) and `JSON.stringify`
are modelled directly.  Strings are treated at the level of their character
lists; `toLowerCase`/`toUpperCase` use `Char.toLower`/`Char.toUpper`
(adequate for the ASCII parameter names involved).
-/

/-- JSON values (the shape of parsed response bodies and of the `unknown`
invocation parameters).  JavaScript `undefined` is represented by `Option`
at use sites, not by a constructor. -/
inductive Json where
  | null
  | bool (b : Bool)
  | num (n : Int)
  | str (s : String)
  | arr (elems : List Json)
  | obj (fields : List (String × Json))

/-- String escaping used by `JSON.stringify` (the escapes relevant to this
development; other control characters do not occur in the values involved). -/
def escapeJsonChar (c : Char) : List Char :=
  if c = '"' then ['\\', '"']
  else if c = '\\' then ['\\', '\\']
  else if c = '\n' then ['\\', 'n']
  else if c = '\t' then ['\\', 't']
  else if c = '\r' then ['\\', 'r']
  else [c]

/-- A JSON string literal, double-quoted and escaped. -/
def jsonQuote (s : String) : String :=
  ⟨'"' :: (s.data.flatMap escapeJsonChar ++ ['"'])⟩

mutual

/-- Model of `JSON.stringify` (compact form, no spacing), as used at
`graph-tools.ts:203,276,320,574`. -/
def jsonStringify : Json → String
  | .null => "null"
  | .bool true => "true"
  | .bool false => "false"
  | .num n => toString n
  | .str s => jsonQuote s
  | .arr xs => "[" ++ stringifyElems xs ++ "]"
  | .obj fs => "\x7b" ++ stringifyFields fs ++ "\x7d"

def stringifyElems : List Json → String
  | [] => ""
  | [x] => jsonStringify x
  | x :: y :: xs => jsonStringify x ++ "," ++ stringifyElems (y :: xs)

def stringifyFields : List (String × Json) → String
  | [] => ""
  | [(k, v)] => jsonQuote k ++ ":" ++ jsonStringify v
  | (k, v) :: f :: fs => jsonQuote k ++ ":" ++ jsonStringify v ++ "," ++ stringifyFields (f :: fs)

end

mutual

/-- Model of the JavaScript `String()` coercion (also applied implicitly by
template literals and by `encodeURIComponent` to non-string arguments). -/
def jsStringOf : Json → String
  | .null => "null"
  | .bool true => "true"
  | .bool false => "false"
  | .num n => toString n
  | .str s => s
  | .arr xs => jsArrJoin xs
  | .obj _ => "[object Object]"

/-- `Array.prototype.toString`, i.e. `join(",")`; `null` elements render as
the empty string. -/
def jsArrJoin : List Json → String
  | [] => ""
  | [x] => jsArrElem x
  | x :: y :: xs => jsArrElem x ++ "," ++ jsArrJoin (y :: xs)

def jsArrElem : Json → String
  | .null => ""
  | .bool true => "true"
  | .bool false => "false"
  | .num n => toString n
  | .str s => s
  | .arr xs => jsArrJoin xs
  | .obj _ => "[object Object]"

end

/-- Template-literal interpolation of a possibly-undefined value
(`x` of type `Option Json`): JavaScript renders `undefined` as the text
`undefined`. -/
def jsStringOfU : Option Json → String
  | none => "undefined"
  | some j => jsStringOf j

/-- Emptiness of a string, phrased on its character list (equivalent to
`String.isEmpty`, stated this way so that proofs can induct on the
characters). -/
def strEmpty (s : String) : Bool := s.data.isEmpty

/-- JavaScript truthiness for JSON values. -/
def jTruthy : Json → Bool
  | .null => false
  | .bool b => b
  | .num n => !(n == 0)
  | .str s => !(strEmpty s)
  | .arr _ => true
  | .obj _ => true

/-- Truthiness of a possibly-undefined value. -/
def jTruthyOpt : Option Json → Bool
  | none => false
  | some j => jTruthy j

/-- Truthiness of a possibly-undefined string (e.g. an optional field that
was supplied as the empty string is falsy). -/
def optStrTruthy : Option String → Bool
  | none => false
  | some s => !(strEmpty s)

/-- Strict equality with the boolean `true` (`x === true`). -/
def isJsTrue : Option Json → Bool
  | some (.bool true) => true
  | _ => false

/-- Lookup in an association list with string keys (property read on a plain
JavaScript object; objects have unique keys, so first match suffices). -/
def assocGet {β : Type} : List (String × β) → String → Option β
  | [], _ => none
  | (k1, v1) :: rest, k => if k1 == k then some v1 else assocGet rest k

/-- Property write on a plain JavaScript object: an existing key is updated
in place (its position preserved), a new key is appended. -/
def assocSet {β : Type} : List (String × β) → String → β → List (String × β)
  | [], k, v => [(k, v)]
  | (k1, v1) :: rest, k, v =>
    if k1 == k then (k1, v) :: rest else (k1, v1) :: assocSet rest k v

/-- Property read `j[key]` on a JSON value; `none` is JavaScript `undefined`.
Non-objects have no named properties of interest here. -/
def jGet (j : Json) (key : String) : Option Json :=
  match j with
  | .obj fs => assocGet fs key
  | _ => none

/-- Optional-chained property read `x?.key`. -/
def jGetOpt (o : Option Json) (key : String) : Option Json :=
  match o with
  | some j => jGet j key
  | none => none

/-- `delete j[key]`: removes the property from an object; on an array (of
non-index properties) or a primitive it has no JSON-observable effect. -/
def jDeleteField (j : Json) (key : String) : Json :=
  match j with
  | .obj fs => .obj (fs.filter (fun kv => kv.1 ≠ key))
  | other => other

/-- Property assignment `j[key] = v` in strict mode: updates an object;
on an array the assigned non-index property is invisible to
`JSON.stringify`, so the JSON-observable value is unchanged; on a primitive
it throws a `TypeError`. -/
def setField : Json → String → Json → Except String Json
  | .obj fs, key, v => .ok (.obj (assocSet fs key v))
  | .arr xs, _, _ => .ok (.arr xs)
  | _, _, _ => .error "TypeError: Cannot create property"

def jIsArr : Json → Bool
  | .arr _ => true
  | _ => false

def jArrElems : Json → List Json
  | .arr xs => xs
  | _ => []

/-- `allItems.concat(value)` where `value` is an array: array append; on a
string receiver, `String.prototype.concat` stringifies the array argument;
any other receiver has no `concat` method (`TypeError`). -/
def jsConcat : Json → List Json → Except String Json
  | .arr xs, ys => .ok (.arr (xs ++ ys))
  | .str s, ys => .ok (.str (s ++ jsArrJoin ys))
  | _, _ => .error "TypeError: allItems.concat is not a function"

/-- Lowercasing as in `String.prototype.toLowerCase` (ASCII-adequate). -/
def toLowerStr (s : String) : String := ⟨s.data.map Char.toLower⟩

/-- Uppercasing as in `String.prototype.toUpperCase` (ASCII-adequate). -/
def toUpperStr (s : String) : String := ⟨s.data.map Char.toUpper⟩

/-- `s.slice(1)`. -/
def dropFirstChar (s : String) : String := ⟨s.data.drop 1⟩

/-- `s.startsWith("$")`. -/
def startsWithDollar (s : String) : Bool :=
  match s.data with
  | '$' :: _ => true
  | _ => false

def replaceFirstAux (pat repl : List Char) : List Char → List Char
  | [] => if pat.isEmpty then repl else []
  | c :: cs =>
    if pat.isPrefixOf (c :: cs) then repl ++ (c :: cs).drop pat.length
    else c :: replaceFirstAux pat repl cs

/-- `s.replace(pat, repl)` with a string pattern: replaces the first
occurrence only, literally (the replacement strings used by the source
contain no `$`-patterns). -/
def replaceFirst (s pat repl : String) : String :=
  ⟨replaceFirstAux pat.data repl.data s.data⟩

/-- `s.endsWith(suffix)`. -/
def strEndsWith (s suffix : String) : Bool := suffix.data.isSuffixOf s.data

/-- `path.replace(/\/content$/, "")`. -/
def stripContentSuffix (s : String) : String :=
  if strEndsWith s "/content" then ⟨s.data.take (s.data.length - 8)⟩ else s

/-- `s.includes(c)` for a single character. -/
def strContainsChar (s : String) (c : Char) : Bool := s.data.contains c

def listIsInfixOf (pat : List Char) : List Char → Bool
  | [] => pat.isEmpty
  | c :: cs => pat.isPrefixOf (c :: cs) || listIsInfixOf pat cs

/-- `s.includes(sub)` substring test. -/
def strIncludes (s sub : String) : Bool := listIsInfixOf sub.data s.data

/-- `Array.prototype.join(sep)` on a list of strings. -/
def joinSep (sep : String) : List String → String
  | [] => ""
  | [x] => x
  | x :: y :: xs => x ++ sep ++ joinSep sep (y :: xs)

def isUnreservedURI (c : Char) : Bool :=
  c.isAlphanum ||
    (c == '-' || c == '_' || c == '.' || c == '!' || c == '~' || c == '*' ||
     c == '\x27' || c == '(' || c == ')')

def hexDigitUpper (n : Nat) : Char :=
  if n < 10 then Char.ofNat (48 + n) else Char.ofNat (55 + n)

def byteToHex (b : Nat) : List Char :=
  ['%', hexDigitUpper (b / 16), hexDigitUpper (b % 16)]

/-- UTF-8 byte sequence of a character. -/
def utf8Bytes (c : Char) : List Nat :=
  let n := c.toNat
  if n < 0x80 then [n]
  else if n < 0x800 then [0xC0 + n / 0x40, 0x80 + n % 0x40]
  else if n < 0x10000 then
    [0xE0 + n / 0x1000, 0x80 + (n / 0x40) % 0x40, 0x80 + n % 0x40]
  else
    [0xF0 + n / 0x40000, 0x80 + (n / 0x1000) % 0x40, 0x80 + (n / 0x40) % 0x40,
     0x80 + n % 0x40]

/-- The builtin `encodeURIComponent`. -/
def encodeURIComponent (s : String) : String :=
  ⟨s.data.flatMap fun c =>
    if isUnreservedURI c then [c] else (utf8Bytes c).flatMap byteToHex⟩

def hexVal (c : Char) : Option Nat :=
  if '0' ≤ c ∧ c ≤ '9' then some (c.toNat - 48)
  else if 'A' ≤ c ∧ c ≤ 'F' then some (c.toNat - 55)
  else if 'a' ≤ c ∧ c ≤ 'f' then some (c.toNat - 87)
  else none

/-- Percent/plus decoding applied by `URLSearchParams` to keys and values
(multi-byte sequences are decoded bytewise; the URLs this development
evaluates are ASCII). -/
def decodeQueryAux : List Char → List Char
  | [] => []
  | '%' :: a :: b :: rest =>
    match hexVal a, hexVal b with
    | some x, some y => Char.ofNat (16 * x + y) :: decodeQueryAux rest
    | _, _ => '%' :: decodeQueryAux (a :: b :: rest)
  | '+' :: rest => ' ' :: decodeQueryAux rest
  | c :: rest => c :: decodeQueryAux rest

def splitOnChar (sep : Char) (cs : List Char) : List (List Char) :=
  match cs with
  | [] => [[]]
  | c :: rest =>
    let r := splitOnChar sep rest
    if c == sep then [] :: r
    else
      match r with
      | [] => [[c]]
      | g :: gs => (c :: g) :: gs

def splitAtFirstEq (seg : List Char) : List Char × List Char :=
  match seg with
  | [] => ([], [])
  | '=' :: rest => ([], rest)
  | c :: rest =>
    let (k, v) := splitAtFirstEq rest
    (c :: k, v)

/-- The entry list of `url.searchParams` for a raw query string (after the
`?`): split on `&`, empty segments skipped, keys and values decoded. -/
def parseQueryStr (q : List Char) : List (String × String) :=
  (splitOnChar '&' q).filterMap fun seg =>
    if seg.isEmpty then none
    else
      let (k, v) := splitAtFirstEq seg
      some (⟨decodeQueryAux k⟩, ⟨decodeQueryAux v⟩)

structure ParsedURL where
  pathname : String
  searchParams : List (String × String)
deriving DecidableEq

/-- Model of `new URL(s)` restricted to absolute http/https URLs; any other
input is treated as a constructor failure (`none` = the constructor throws).
The pathname is kept percent-encoded, as in WHATWG URLs. -/
def parseURL (s : String) : Option ParsedURL :=
  let cs := s.data
  let afterScheme : Option (List Char) :=
    if "https://".data.isPrefixOf cs then some (cs.drop 8)
    else if "http://".data.isPrefixOf cs then some (cs.drop 7)
    else none
  match afterScheme with
  | none => none
  | some rest =>
    let noFrag := rest.takeWhile (fun c => !(c == '#'))
    let host := noFrag.takeWhile (fun c => !(c == '/' || c == '?'))
    if host.isEmpty then none
    else
      let afterHost := noFrag.drop host.length
      match afterHost with
      | [] => some ⟨"/", []⟩
      | '?' :: q => some ⟨"/", parseQueryStr q⟩
      | path =>
        let pn := path.takeWhile (fun c => !(c == '?'))
        let qp :=
          match path.drop pn.length with
          | '?' :: q => parseQueryStr q
          | _ => []
        some ⟨⟨pn⟩, qp⟩

/-- `new URL(x)` where `x` is the (truthy) `@odata.nextLink` value: non-string
arguments are first coerced by `String()`. -/
def urlOfJsonOpt : Option Json → Option ParsedURL
  | some j => parseURL (jsStringOf j)
  | none => none

/-! ## Data model of `graph-tools.ts` -/

/-- One location a parameter binds into (`paramDef.type`). -/
inductive ParamLoc where
  | Path
  | Query
  | Body
  | Header
deriving DecidableEq

/-- A parameter definition from the generated endpoint catalog
(`tool.parameters`); a Zod schema is modelled by its validation outcome,
a boolean predicate on the candidate value (`schema.safeParse(v).success`). -/
structure ParamDef where
  name : String
  type : ParamLoc
  schema : Option (Json → Bool) := none

/-- An entry of `tool.errors` (only the description is inspected). -/
structure ToolError where
  description : String

/-- A generated endpoint descriptor (`(typeof api.endpoints)[0]`), the fields
`executeGraphTool` reads.  The source field `alias` is a Lean keyword and is
spelled `toolAlias` here. -/
structure Endpoint where
  toolAlias : String
  method : String
  path : String
  description : Option String := none
  parameters : Option (List ParamDef) := none
  errors : Option (List ToolError) := none

/-- An `endpoints.json` entry (`EndpointConfig`), the fields
`executeGraphTool` reads. -/
structure EndpointConfig where
  toolName : String
  scopes : Option (List String) := none
  workScopes : Option (List String) := none
  returnDownloadUrl : Option Bool := none
  supportsTimezone : Option Bool := none
  llmTip : Option String := none
  acceptHeader : Option String := none

/-- One content item of a response from the network collaborator
(only its `text` field is read). -/
structure RespItem where
  text : Option String := none
deriving DecidableEq

/-- The `McpResponse` shape returned by `graphClient.graphRequest`. -/
structure McpResponse where
  content : List RespItem
  meta : Option Json := none
  isError : Option Bool := none

/-- The `options` record passed to `graphClient.graphRequest`
(`graph-tools.ts:189-200`); optional fields are `none` when the source
leaves them unset. -/
structure ReqOptions where
  method : String
  headers : List (String × String)
  body : Option String := none
  rawResponse : Option Bool := none
  includeHeaders : Option Bool := none
  excludeResponse : Option Bool := none
  queryParams : Option (List (String × String)) := none
deriving DecidableEq

/-- Instrumentation: one call issued to the network collaborator. -/
structure IssuedRequest where
  path : String
  options : ReqOptions
deriving DecidableEq

/-- A content block of the returned `CallToolResult`.  The declared result
type admits text, image, audio and resource blocks. -/
inductive OutBlock where
  | text (t : Option String)
  | image (data : String) (mimeType : String)
  | audio (data : String) (mimeType : String)
  | resource (uri : String) (payload : String)
deriving DecidableEq

def OutBlock.isText : OutBlock → Bool
  | .text _ => true
  | _ => false

/-- The `CallToolResult` envelope. -/
structure CallToolResult where
  content : List OutBlock
  meta : Option Json := none
  isError : Option Bool := none

/-! ## Parameter binder (`graph-tools.ts:98-168`) -/

/-- The reserved OData query-parameter names (`graph-tools.ts:106-116`). -/
def odataParams : List String :=
  ["filter", "select", "expand", "orderby", "skip", "top", "count", "search",
   "format"]

/-- The reserved control keys skipped by the binder
(`graph-tools.ts:100`). -/
def controlParams : List String :=
  ["fetchAllPages", "includeHeaders", "excludeResponse", "timezone"]

/-- The state the binding loop accumulates: resolved path, query map, header
map and body (`body` starts as JavaScript `null`). -/
structure BindResult where
  path : String
  queryParams : List (String × String)
  headers : List (String × String)
  body : Json

/-- One iteration of the `for (const [paramName, paramValue] of
Object.entries(params))` loop (`graph-tools.ts:98-168`). -/
def bindStep (parameterDefinitions : List ParamDef) (acc : BindResult)
    (entry : String × Json) : BindResult :=
  let paramName := entry.1
  let paramValue := entry.2
  if controlParams.contains paramName then acc
  else
    let normalizedParamName :=
      if startsWithDollar paramName then dropFirstChar paramName else paramName
    let isOdataParam := odataParams.contains (toLowerStr normalizedParamName)
    let fixedParamName :=
      if isOdataParam then "$" ++ toLowerStr normalizedParamName else paramName
    match parameterDefinitions.find?
        (fun p => p.name == paramName || (isOdataParam && p.name == normalizedParamName)) with
    | some paramDef =>
      match paramDef.type with
      | .Path =>
        { acc with path :=
            (replaceFirst
              (replaceFirst acc.path ("\x7b" ++ paramName ++ "\x7d")
                (encodeURIComponent (jsStringOf paramValue)))
              (":" ++ paramName)
              (encodeURIComponent (jsStringOf paramValue))) }
      | .Query =>
        { acc with queryParams :=
            assocSet acc.queryParams fixedParamName (jsStringOf paramValue) }
      | .Body =>
        match paramDef.schema with
        | some schema =>
          if schema paramValue then { acc with body := paramValue }
          else
            let wrapped := Json.obj [(paramName, paramValue)]
            if schema wrapped then { acc with body := wrapped }
            else { acc with body := paramValue }
        | none => { acc with body := paramValue }
      | .Header =>
        { acc with headers :=
            assocSet acc.headers fixedParamName (jsStringOf paramValue) }
    | none =>
      if paramName == "body" then { acc with body := paramValue } else acc

/-- The whole binding loop over the invocation's parameter entries. -/
def bindParams (parameterDefinitions : List ParamDef) (toolPath : String)
    (params : List (String × Json)) : BindResult :=
  params.foldl (bindStep parameterDefinitions) ⟨toolPath, [], [], Json.null⟩

/-! ## Pagination aggregator (`graph-tools.ts:232-284`) -/

/-- `response?.content?.[0]?.text`. -/
def respFirstText : Option McpResponse → Option String
  | some r =>
    match r.content with
    | item :: _ => item.text
    | [] => none
  | none => none

/-- The state when the `while` loop finishes.  `followUps` instruments the
requests issued by the loop; `threw` records that a JavaScript exception
escaped to the `catch` at `graph-tools.ts:281`. -/
structure LoopResult where
  allItems : Json
  finalNextLink : Option Json
  pageCount : Nat
  followUps : List IssuedRequest
  threw : Bool

/-- The pagination `while (nextLink && pageCount < 100)` loop
(`graph-tools.ts:240-264`).  `fuel` is the structural-recursion measure;
callers maintain `100 ≤ fuel + pageCount`, under which the `fuel = 0` exit
coincides with the loop's own `pageCount < 100` exit. -/
def pageLoop (parse : String → Option Json)
    (graphRequest : String → ReqOptions → Except String (Option McpResponse))
    (options : ReqOptions) :
    Nat → Option Json → Json → Nat → List IssuedRequest → LoopResult
  | 0, nextLink, allItems, pageCount, fus =>
    ⟨allItems, nextLink, pageCount, fus, false⟩
  | fuel + 1, nextLink, allItems, pageCount, fus =>
    if jTruthyOpt nextLink && decide (pageCount < 100) then
      match urlOfJsonOpt nextLink with
      | none => ⟨allItems, nextLink, pageCount, fus, true⟩
      | some url =>
        let nextPath := replaceFirst url.pathname "/v1.0" ""
        let nextOptions := { options with queryParams := some url.searchParams }
        match graphRequest nextPath nextOptions with
        | .error _ =>
          ⟨allItems, nextLink, pageCount, fus ++ [⟨nextPath, nextOptions⟩], true⟩
        | .ok nextResponse =>
          match respFirstText nextResponse with
          | none =>
            ⟨allItems, nextLink, pageCount, fus ++ [⟨nextPath, nextOptions⟩], false⟩
          | some text =>
            if strEmpty text then
              ⟨allItems, nextLink, pageCount, fus ++ [⟨nextPath, nextOptions⟩], false⟩
            else
              match parse text with
              | none =>
                ⟨allItems, nextLink, pageCount, fus ++ [⟨nextPath, nextOptions⟩], true⟩
              | some nextJson =>
                match jGet nextJson "value" with
                | some v =>
                  if jTruthy v && jIsArr v then
                    match jsConcat allItems (jArrElems v) with
                    | .error _ =>
                      ⟨allItems, nextLink, pageCount,
                        fus ++ [⟨nextPath, nextOptions⟩], true⟩
                    | .ok allItems2 =>
                      pageLoop parse graphRequest options fuel
                        (jGet nextJson "@odata.nextLink") allItems2
                        (pageCount + 1) (fus ++ [⟨nextPath, nextOptions⟩])
                  else
                    pageLoop parse graphRequest options fuel
                      (jGet nextJson "@odata.nextLink") allItems
                      (pageCount + 1) (fus ++ [⟨nextPath, nextOptions⟩])
                | none =>
                  pageLoop parse graphRequest options fuel
                    (jGet nextJson "@odata.nextLink") allItems
                    (pageCount + 1) (fus ++ [⟨nextPath, nextOptions⟩])
    else
      ⟨allItems, nextLink, pageCount, fus, false⟩

/-- `let allItems = combinedResponse.value || []` (`graph-tools.ts:236`). -/
def initialItems (combined : Json) : Json :=
  match jGet combined "value" with
  | some v => if jTruthy v then v else Json.arr []
  | none => Json.arr []

/-- `combinedResponse['@odata.count'] = allItems.length`
(`graph-tools.ts:272`): `length` is a number for arrays and strings;
otherwise it is `undefined`, and an undefined-valued property is dropped by
`JSON.stringify`, which this model (whose `Json` has no `undefined`)
renders by removing the field. -/
def setCountField (j : Json) (allItems : Json) : Except String Json :=
  match allItems with
  | .arr xs => setField j "@odata.count" (.num xs.length)
  | .str s => setField j "@odata.count" (.num s.length)
  | _ => .ok (jDeleteField j "@odata.count")

/-- `response.content[0].text = ...` (`graph-tools.ts:276`). -/
def setFirstText (response : Option McpResponse) (s : String) :
    Option McpResponse :=
  match response with
  | some r =>
    match r.content with
    | item :: rest => some { r with content := { item with text := some s } :: rest }
    | [] => some r
  | none => none

/-- What the pagination block leaves behind: the (possibly rewritten)
response, the instrumented follow-up requests, whether the cap warning at
`graph-tools.ts:266-268` fired, and whether the `catch` at line 281 ran. -/
structure PaginationOutcome where
  response : Option McpResponse
  followUps : List IssuedRequest
  warnedCap : Bool
  threw : Bool

/-- The `if (fetchAllPages && response?.content?.[0]?.text) { try ... catch }`
block (`graph-tools.ts:232-284`). -/
def applyFetchAllPages (fetchAllPages : Bool) (parse : String → Option Json)
    (graphRequest : String → ReqOptions → Except String (Option McpResponse))
    (options : ReqOptions) (response : Option McpResponse) : PaginationOutcome :=
  match fetchAllPages, respFirstText response with
  | true, some text =>
    if strEmpty text then ⟨response, [], false, false⟩
    else
      match parse text with
      | none => ⟨response, [], false, true⟩
      | some combined =>
        let allItems := initialItems combined
        let nextLink := jGet combined "@odata.nextLink"
        let r := pageLoop parse graphRequest options 99 nextLink allItems 1 []
        if r.threw then ⟨response, r.followUps, false, true⟩
        else
          let warned := decide (100 ≤ r.pageCount)
          match setField combined "value" r.allItems with
          | .error _ => ⟨response, r.followUps, warned, true⟩
          | .ok c1 =>
            match
              (if jTruthyOpt (jGet c1 "@odata.count") then
                setCountField c1 r.allItems
              else .ok c1) with
            | .error _ => ⟨response, r.followUps, warned, true⟩
            | .ok c2 =>
              let c3 := jDeleteField c2 "@odata.nextLink"
              ⟨setFirstText response (jsonStringify c3), r.followUps, warned, false⟩
  | _, _ => ⟨response, [], false, false⟩

/-! ## The executor (`executeGraphTool`, `graph-tools.ts:83-328`) -/

def isOptTrue : Option Bool → Bool
  | some true => true
  | _ => false

def cfgSupportsTimezone : Option EndpointConfig → Bool
  | some c => isOptTrue c.supportsTimezone
  | none => false

def cfgReturnDownloadUrl : Option EndpointConfig → Bool
  | some c => isOptTrue c.returnDownloadUrl
  | none => false

def cfgAcceptHeader : Option EndpointConfig → Option String
  | some c => c.acceptHeader
  | none => none

/-- The failure envelope built by the `catch` at `graph-tools.ts:314-327`. -/
def errorEnvelope (toolAlias msg : String) : CallToolResult :=
  { content :=
      [OutBlock.text (some (jsonStringify
        (Json.obj [("error", Json.str ("Error in tool " ++ toolAlias ++ ": " ++ msg))])))],
    isError := some true }

/-- `executeGraphTool`: binds the parameter map, issues the request, runs the
pagination block, and normalizes the result.  The second component
instruments every request issued to the network collaborator.  A `.error`
from the oracle models a rejected promise; `.ok none` models a nullish
resolution (whose later `.content` read throws, reaching the same catch). -/
def executeGraphTool (tool : Endpoint) (config : Option EndpointConfig)
    (parse : String → Option Json)
    (graphRequest : String → ReqOptions → Except String (Option McpResponse))
    (params : List (String × Json)) : CallToolResult × List IssuedRequest :=
  let parameterDefinitions := tool.parameters.getD []
  let b := bindParams parameterDefinitions tool.path params
  let headers :=
    if cfgSupportsTimezone config && jTruthyOpt (assocGet params "timezone") then
      assocSet b.headers "Prefer"
        ("outlook.timezone=\"" ++ jsStringOfU (assocGet params "timezone") ++ "\"")
    else b.headers
  let headers :=
    if optStrTruthy (cfgAcceptHeader config) then
      assocSet headers "Accept" ((cfgAcceptHeader config).getD "")
    else headers
  let path :=
    if b.queryParams.isEmpty then b.path
    else
      let queryString := joinSep "&"
        (b.queryParams.map fun kv =>
          encodeURIComponent kv.1 ++ "=" ++ encodeURIComponent kv.2)
      b.path ++ (if strContainsChar b.path '?' then "&" else "?") ++ queryString
  let method := toUpperStr tool.method
  let bodyStr : Option String :=
    if !(method == "GET") && jTruthy b.body then
      some (match b.body with
            | Json.str s => s
            | j => jsonStringify j)
    else none
  let isProbablyMediaContent :=
    (match tool.errors with
     | some es => es.any (fun e => e.description == "Retrieved media content")
     | none => false)
    || strEndsWith path "/content"
  let pathAndRaw : String × Option Bool :=
    if cfgReturnDownloadUrl config && strEndsWith path "/content" then
      (stripContentSuffix path, none)
    else if isProbablyMediaContent then (path, some true)
    else (path, none)
  let options : ReqOptions :=
    { method := method, headers := headers, body := bodyStr,
      rawResponse := pathAndRaw.2,
      includeHeaders := if isJsTrue (assocGet params "includeHeaders") then some true else none,
      excludeResponse := if isJsTrue (assocGet params "excludeResponse") then some true else none,
      queryParams := none }
  match graphRequest pathAndRaw.1 options with
  | .error msg => (errorEnvelope tool.toolAlias msg, [⟨pathAndRaw.1, options⟩])
  | .ok response =>
    let fetchAllPages := isJsTrue (assocGet params "fetchAllPages")
    let po := applyFetchAllPages fetchAllPages parse graphRequest options response
    match po.response with
    | none =>
      (errorEnvelope tool.toolAlias "Cannot read properties of null (reading 'content')",
       ⟨pathAndRaw.1, options⟩ :: po.followUps)
    | some r =>
      ({ content := r.content.map (fun item => OutBlock.text item.text),
         meta := r.meta, isError := r.isError },
       ⟨pathAndRaw.1, options⟩ :: po.followUps)

/-! ## The discovery dispatcher (`execute-tool`, `graph-tools.ts:551-587`) -/

/-- `toolsRegistry.get(tool_name)` over the registry built by
`buildToolsRegistry`. -/
def registryLookup (registry : List (String × (Endpoint × Option EndpointConfig)))
    (toolName : String) : Option (Endpoint × Option EndpointConfig) :=
  assocGet registry toolName

/-- The `execute-tool` handler (`graph-tools.ts:567-585`).  The second
component again instruments the requests issued to the network
collaborator. -/
def executeToolDispatch
    (registry : List (String × (Endpoint × Option EndpointConfig)))
    (parse : String → Option Json)
    (graphRequest : String → ReqOptions → Except String (Option McpResponse))
    (toolName : String) (parameters : List (String × Json)) :
    CallToolResult × List IssuedRequest :=
  match registryLookup registry toolName with
  | none =>
    ({ content :=
         [OutBlock.text (some (jsonStringify (Json.obj
            [("error", Json.str ("Tool not found: " ++ toolName)),
             ("tip", Json.str "Use search-tools to find available tools.")])))],
       isError := some true }, [])
  | some (tool, config) => executeGraphTool tool config parse graphRequest parameters

/-! ## The composite workflow (`composite-tools.ts:82-282`)

`graphClient.makeRequest` is an oracle from a path and a header list to
either a rejection message or a parsed JSON body. -/

/-- The caller-facing parameters of `get-transcript-by-meeting`
(`GetTranscriptParams`). -/
structure TranscriptParams where
  date : String
  subjectContains : String
  startTime : Option String := none
  endTime : Option String := none
  timezone : Option String := none

mutual

/-- Pretty variant of `JSON.stringify(x, null, 2)` used for the success
payload (`composite-tools.ts:268`). -/
def jsonStringify2 (ind : String) : Json → String
  | .null => "null"
  | .bool true => "true"
  | .bool false => "false"
  | .num n => toString n
  | .str s => jsonQuote s
  | .arr [] => "[]"
  | .arr (x :: xs) => "[\n" ++ stringify2Elems (ind ++ "  ") (x :: xs) ++ "\n" ++ ind ++ "]"
  | .obj [] => "\x7b\x7d"
  | .obj (f :: fs) => "\x7b\n" ++ stringify2Fields (ind ++ "  ") (f :: fs) ++ "\n" ++ ind ++ "\x7d"

def stringify2Elems (ind : String) : List Json → String
  | [] => ""
  | [x] => ind ++ jsonStringify2 ind x
  | x :: y :: xs => ind ++ jsonStringify2 ind x ++ ",\n" ++ stringify2Elems ind (y :: xs)

def stringify2Fields (ind : String) : List (String × Json) → String
  | [] => ""
  | [(k, v)] => ind ++ jsonQuote k ++ ": " ++ jsonStringify2 ind v
  | (k, v) :: f :: fs =>
    ind ++ jsonQuote k ++ ": " ++ jsonStringify2 ind v ++ ",\n" ++ stringify2Fields ind (f :: fs)

end

/-- A single text-content failure or success envelope, as every return of
`getTranscriptByMeeting` is of this shape. -/
def textResult (msg : String) (isErr : Bool) : CallToolResult :=
  { content := [OutBlock.text (some msg)],
    isError := if isErr then some true else none }

/-- `transcripts.length === 0` (also used for `events.length === 0`):
`length` is a number only for arrays and strings; for any other value the
comparison with `0` is false. -/
def jsLengthIsZero : Json → Bool
  | .arr xs => xs.isEmpty
  | .str s => strEmpty s
  | _ => false

/-- The `events.find` predicate
(`event.subject?.toLowerCase().includes(q) && event.isOnlineMeeting === true`,
`composite-tools.ts:129-132`).  A nullish subject short-circuits to a falsy
result; a non-string subject has no `toLowerCase` (`TypeError`); a nullish
event makes the property read itself throw. -/
def evalSubjectMatch (subjectContains : String) (event : Json) :
    Except String Bool :=
  match event with
  | Json.null => .error "TypeError: Cannot read properties of null (reading 'subject')"
  | _ =>
    match jGet event "subject" with
    | none => .ok false
    | some Json.null => .ok false
    | some (Json.str s) =>
      .ok (strIncludes (toLowerStr s) (toLowerStr subjectContains)
            && isJsTrue (jGet event "isOnlineMeeting"))
    | some _ => .error "TypeError: event.subject.toLowerCase is not a function"

def findFirstMatch (subjectContains : String) : List Json → Except String (Option Json)
  | [] => .ok none
  | e :: es =>
    match evalSubjectMatch subjectContains e with
    | .error msg => .error msg
    | .ok true => .ok (some e)
    | .ok false => findFirstMatch subjectContains es

/-- `events.find(...)`; a non-array receiver has no `find` method. -/
def jsFindMatch (subjectContains : String) : Json → Except String (Option Json)
  | .arr xs => findFirstMatch subjectContains xs
  | _ => .error "TypeError: events.find is not a function"

/-- The listing line for one available online meeting
(`- ${e.subject} (${e.start?.dateTime})`, `composite-tools.ts:137`). -/
def meetingLine (e : Json) : String :=
  "- " ++ jsStringOfU (jGet e "subject") ++ " ("
    ++ jsStringOfU (jGetOpt (jGet e "start") "dateTime") ++ ")"

/-- `events.filter((e) => e.isOnlineMeeting)` over an array of events. -/
def onlineMeetingsOf (events : List Json) : List Json :=
  events.filter fun e => jTruthyOpt (jGet e "isOnlineMeeting")

/-- The diagnostic text of the "no subject match" failure
(`composite-tools.ts:134-147`). -/
def noMatchText (subjectContains date : String) (events : List Json) : String :=
  let availableMeetings := joinSep "\n" ((onlineMeetingsOf events).map meetingLine)
  "No online meeting found matching \"" ++ subjectContains
    ++ "\".\n\nAvailable online meetings on " ++ date ++ ":\n"
    ++ (if strEmpty availableMeetings then "(none)" else availableMeetings)

/-- `meetingsData.value?.[0]` (`composite-tools.ts:186`); index `0` of an
array, character `0` of a string, property `"0"` of an object, `undefined`
otherwise. -/
def jIndexZero : Option Json → Option Json
  | some (.arr (x :: _)) => some x
  | some (.arr []) => none
  | some (.obj fs) => assocGet fs "0"
  | some (.str s) =>
    match s.data with
    | c :: _ => some (.str ⟨[c]⟩)
    | [] => none
  | _ => none

/-- `x || d` on a possibly-undefined value. -/
def orTruthy (o : Option Json) (d : Json) : Json :=
  match o with
  | some j => if jTruthy j then j else d
  | none => d

/-- Gathers an object's fields, dropping `undefined`-valued members exactly
as `JSON.stringify` does (this model's `Json` has no `undefined`). -/
def definedFields (fs : List (String × Option Json)) : List (String × Json) :=
  fs.filterMap fun kv =>
    match kv.2 with
    | some v => some (kv.1, v)
    | none => none

/-- The calendar-view path built at `composite-tools.ts:92-102`. -/
def calendarPathOf (p : TranscriptParams) : String :=
  let startDateTime :=
    if optStrTruthy p.startTime then p.date ++ "T" ++ p.startTime.getD "" ++ ":00"
    else p.date ++ "T00:00:00"
  let endDateTime :=
    if optStrTruthy p.endTime then p.date ++ "T" ++ p.endTime.getD "" ++ ":00"
    else p.date ++ "T23:59:59"
  "/me/calendarView?startDateTime=" ++ encodeURIComponent startDateTime
    ++ "&endDateTime=" ++ encodeURIComponent endDateTime

/-- The calendar-view headers built at `composite-tools.ts:103-107`. -/
def calendarHeadersOf (p : TranscriptParams) : List (String × String) :=
  [("Prefer", "outlook.timezone=\"" ++ p.timezone.getD "UTC" ++ "\"")]

/-- `getTranscriptByMeeting` (`composite-tools.ts:82-282`): the linear
workflow calendar query → subject match → event details → online-meeting
resolution → transcript listing → content fetch, each step returning a
distinct failure envelope. -/
def getTranscriptByMeeting
    (makeRequest : String → List (String × String) → Except String Json)
    (params : TranscriptParams) : CallToolResult :=
  let date := params.date
  let subjectContains := params.subjectContains
  match makeRequest (calendarPathOf params) (calendarHeadersOf params) with
  | .error msg => textResult ("Failed to query calendar: " ++ msg) true
  | .ok calendarData =>
    let events :=
      match jGet calendarData "value" with
      | some v => if jTruthy v then v else Json.arr []
      | none => Json.arr []
    if jsLengthIsZero events then
      textResult ("No meetings found on " ++ date) true
    else
      match jsFindMatch subjectContains events with
      | .error msg => textResult ("Error retrieving transcript: " ++ msg) true
      | .ok none =>
        textResult (noMatchText subjectContains date (jArrElems events)) true
      | .ok (some matchingEvent) =>
        let eventPath := "/me/events/" ++ jsStringOfU (jGet matchingEvent "id")
          ++ "?$select=subject,onlineMeeting,onlineMeetingUrl,isOnlineMeeting"
        match makeRequest eventPath [] with
        | .error msg => textResult ("Failed to get event details: " ++ msg) true
        | .ok eventData =>
          let joinUrl := jGetOpt (jGet eventData "onlineMeeting") "joinUrl"
          if !jTruthyOpt joinUrl then
            textResult ("Meeting \"" ++ jsStringOfU (jGet matchingEvent "subject")
              ++ "\" does not have a Teams join URL") true
          else
            let meetingsPath := "/me/onlineMeetings?$filter=JoinWebUrl eq \x27"
              ++ encodeURIComponent (jsStringOfU joinUrl) ++ "\x27"
            match makeRequest meetingsPath [] with
            | .error msg => textResult ("Failed to resolve meeting ID: " ++ msg) true
            | .ok meetingsData =>
              let onlineMeeting := jIndexZero (jGet meetingsData "value")
              if !jTruthyOpt onlineMeeting then
                textResult ("Could not resolve online meeting for \""
                  ++ jsStringOfU (jGet matchingEvent "subject") ++ "\"") true
              else
                let meetingId := jGetOpt onlineMeeting "id"
                let transcriptsPath := "/me/onlineMeetings/" ++ jsStringOfU meetingId
                  ++ "/transcripts"
                match makeRequest transcriptsPath [] with
                | .error msg => textResult ("Failed to list transcripts: " ++ msg) true
                | .ok transcriptsData =>
                  let transcripts :=
                    match jGet transcriptsData "value" with
                    | some v => if jTruthy v then v else Json.arr []
                    | none => Json.arr []
                  if jsLengthIsZero transcripts then
                    textResult ("No transcripts found for meeting \""
                      ++ jsStringOfU (jGet matchingEvent "subject")
                      ++ "\".\n\nNote: Transcription must be enabled during the meeting to generate transcripts.")
                      true
                  else
                    match jIndexZero (some transcripts) with
                    | none =>
                      textResult
                        "Error retrieving transcript: TypeError: Cannot read properties of undefined (reading 'id')"
                        true
                    | some transcript =>
                      let transcriptId := jGetOpt (some transcript) "id"
                      let contentPath := "/me/onlineMeetings/" ++ jsStringOfU meetingId
                        ++ "/transcripts/" ++ jsStringOfU transcriptId ++ "/content"
                      match makeRequest contentPath [("Accept", "text/vtt")] with
                      | .error msg =>
                        textResult ("Failed to fetch transcript content: " ++ msg) true
                      | .ok contentData =>
                        let vttContent :=
                          orTruthy (jGet contentData "rawResponse")
                            (orTruthy (jGet contentData "message") (Json.str "No content"))
                        let result := Json.obj
                          [("meeting", Json.obj (definedFields
                              [("subject", jGet matchingEvent "subject"),
                               ("start", jGet matchingEvent "start"),
                               ("end", jGet matchingEvent "end"),
                               ("organizer", some (orTruthy
                                  (jGetOpt (jGetOpt (jGetOpt onlineMeeting "participants")
                                    "organizer") "upn")
                                  (Json.str "unknown")))])),
                           ("transcript", Json.obj (definedFields
                              [("id", transcriptId),
                               ("createdDateTime", jGet transcript "createdDateTime"),
                               ("endDateTime", jGet transcript "endDateTime")])),
                           ("content", vttContent)]
                        textResult (jsonStringify2 "" result) false

/-! ## Concrete oracles used by witnesses and counterexamples -/

/-- A GET options record as built for a parameterless listing invocation. -/
def optsGET : ReqOptions := { method := "GET", headers := [] }

/-! ## Concrete data for witnesses and counterexamples, and derived
notions used by the claim statements -/

/-- A sample Zod-style schema: accepts exactly objects having a `message`
field whose value is a string. -/
def schemaMessageObj : Json → Bool
  | .obj [("message", .str _)] => true
  | _ => false

/-- First page, second page, and an unparsable third page for the mid-loop
failure runs: page 1 holds item `1` and a cursor to `/a`; page 2 (`q2`)
holds item `2` and a cursor to `/b`; the `/b` response text `bad` is not
JSON. -/
def c1parse : String → Option Json := fun s =>
  if s == "q1" then
    some (.obj [("value", .arr [.num 1]),
                ("@odata.nextLink", .str "https://g.example/v1.0/a?x=1")])
  else if s == "q2" then
    some (.obj [("value", .arr [.num 2]),
                ("@odata.nextLink", .str "https://g.example/v1.0/b")])
  else none

def c1req : String → ReqOptions → Except String (Option McpResponse) := fun p _ =>
  if p == "/a" then .ok (some { content := [{ text := some "q2" }] })
  else if p == "/b" then .ok (some { content := [{ text := some "bad" }] })
  else .error "ECONNRESET"

def c1resp : Option McpResponse := some { content := [{ text := some "q1" }] }

/-- The items a merged follow-up page contributes: its `value` member when
that is a truthy array, nothing otherwise (`graph-tools.ts:256-258`). -/
def pageContrib (page : Json) : List Json :=
  match jGet page "value" with
  | some v => if jTruthy v && jIsArr v then jArrElems v else []
  | none => []

/-- The oracle serves a clean chain of follow-up pages from the cursor `nl`:
each cursor is truthy and parses as a URL, each follow-up request resolves
to a response with nonempty text that parses to the next listed page, and
the last page's cursor is falsy or absent. -/
def ServesChain (parse : String → Option Json)
    (graphRequest : String → ReqOptions → Except String (Option McpResponse))
    (options : ReqOptions) : Option Json → List Json → Prop
  | nl, [] => jTruthyOpt nl = false
  | nl, page :: rest =>
    jTruthyOpt nl = true ∧
    ∃ (url : ParsedURL) (nextResponse : Option McpResponse) (text : String),
      urlOfJsonOpt nl = some url ∧
      graphRequest (replaceFirst url.pathname "/v1.0" "")
          { options with queryParams := some url.searchParams } = .ok nextResponse ∧
      respFirstText nextResponse = some text ∧
      strEmpty text = false ∧
      parse text = some page ∧
      ServesChain parse graphRequest options (jGet page "@odata.nextLink") rest

/-- The cursor left over after following a chain of pages. -/
def chainLastLink : Option Json → List Json → Option Json
  | nl, [] => nl
  | _, page :: rest => chainLastLink (jGet page "@odata.nextLink") rest

/-- The follow-up requests a chain of pages gives rise to. -/
def chainFollowUps (options : ReqOptions) : Option Json → List Json → List IssuedRequest
  | _, [] => []
  | nl, page :: rest =>
    match urlOfJsonOpt nl with
    | none => []
    | some url =>
      ⟨replaceFirst url.pathname "/v1.0" "",
       { options with queryParams := some url.searchParams }⟩
        :: chainFollowUps options (jGet page "@odata.nextLink") rest

/-- The completed aggregation's body fields (`graph-tools.ts:270-274`): the
first page's fields with `value` replaced by the full accumulation, the
count updated only when the existing `@odata.count` value is truthy, and
the continuation cursor removed. -/
def finalizeFields (fs : List (String × Json)) (allItems : List Json) :
    List (String × Json) :=
  let f1 := assocSet fs "value" (Json.arr allItems)
  let f2 :=
    if jTruthyOpt (assocGet f1 "@odata.count") then
      assocSet f1 "@odata.count" (Json.num allItems.length)
    else f1
  f2.filter (fun kv => kv.1 ≠ "@odata.nextLink")

/-- Modelled from the spec claim C5 (for comparison with the source's
`finalizeFields`): the first page's fields with `value` replaced, the count
field unconditionally updated to the accumulated item count, and the
continuation cursor removed. -/
def claimedAggregateFields (fs : List (String × Json)) (allItems : List Json) :
    List (String × Json) :=
  (assocSet (assocSet fs "value" (Json.arr allItems)) "@odata.count"
      (Json.num allItems.length)).filter
    (fun kv => kv.1 ≠ "@odata.nextLink")

/-- A two-page aggregation whose first page carries `"@odata.count": 0`
(falsy), item `1`, and a cursor; the follow-up page carries item `2` and no
cursor. -/
def c5parse : String → Option Json := fun s =>
  if s == "p1" then
    some (.obj [("@odata.count", .num 0), ("value", .arr [.num 1]),
                ("@odata.nextLink", .str "https://g.example/v1.0/a?x=1")])
  else if s == "p2" then some (.obj [("value", .arr [.num 2])])
  else none

def c5req : String → ReqOptions → Except String (Option McpResponse) := fun p _ =>
  if p == "/a" then .ok (some { content := [{ text := some "p2" }] })
  else .error "ECONNRESET"

def c5resp : Option McpResponse := some { content := [{ text := some "p1" }] }

/-- The shape of every pagination follow-up request: some cursor value whose
URL parse yields `url`, with the request path equal to `url`'s pathname
with the *first occurrence* of `/v1.0` removed, and the query parameters
replaced by `url`'s (`graph-tools.ts:243-253`). -/
def followUpShaped (options : ReqOptions) (fu : IssuedRequest) : Prop :=
  ∃ (link : Json) (url : ParsedURL),
    parseURL (jsStringOf link) = some url ∧
    fu.path = replaceFirst url.pathname "/v1.0" "" ∧
    fu.options = { options with queryParams := some url.searchParams }

/-- Modelled from the spec claim C8 (for comparison with the source's
`replaceFirst _ "/v1.0" ""`): removal of a *leading* version prefix only. -/
def stripVersionLead (p : String) : String :=
  if "/v1.0".data.isPrefixOf p.data then ⟨p.data.drop 5⟩ else p

/-- A first page whose continuation URL's path contains `/v1.0` in a
non-leading position. -/
def c8parse : String → Option Json := fun s =>
  if s == "r1" then
    some (.obj [("value", .arr [.num 1]),
                ("@odata.nextLink", .str "https://g.example/a/v1.0/b?x=1")])
  else if s == "r2" then some (.obj [("value", .arr [.num 2])])
  else none

def c8req : String → ReqOptions → Except String (Option McpResponse) := fun p _ =>
  if p == "/a/b" then .ok (some { content := [{ text := some "r2" }] })
  else .error "ECONNRESET"

def c8resp : Option McpResponse := some { content := [{ text := some "r1" }] }

def c7event1 : Json :=
  Json.obj [("id", .str "e1"), ("subject", .str "Team Standup"),
            ("isOnlineMeeting", .bool true),
            ("start", Json.obj [("dateTime", .str "2026-01-16T09:00:00")])]

def c7event2 : Json :=
  Json.obj [("id", .str "e2"), ("subject", .str "Budget Review"),
            ("isOnlineMeeting", .bool true),
            ("start", Json.obj [("dateTime", .str "2026-01-16T10:00:00")])]

def c7cal : Json := Json.obj [("value", Json.arr [c7event1, c7event2])]

def c7client : String → List (String × String) → Except String Json :=
  fun _ _ => .ok c7cal

def c7params : TranscriptParams :=
  { date := "2026-01-16", subjectContains := "nonexistent" }

/-! ## General lemmas -/

theorem strData_append (a b : String) : (a ++ b).data = a.data ++ b.data := rfl

/-- A name whose lowercased form is a reserved OData name is not a reserved
control key. -/

theorem controlParams_not_odata {n : String} (h : toLowerStr n ∈ odataParams) :
    controlParams.contains n = false := by
  cases hc : controlParams.contains n
  · rfl
  · exfalso
    have hm : n ∈ controlParams := by simpa using hc
    fin_cases hm <;> revert h <;> decide

/-- A `$`-prefixed name is never a reserved control key. -/

theorem controlParams_not_dollar (n : String) :
    controlParams.contains ("$" ++ n) = false := by
  cases hc : controlParams.contains ("$" ++ n)
  · rfl
  · exfalso
    have hm : ("$" ++ n) ∈ controlParams := by simpa using hc
    simp only [controlParams, List.mem_cons, List.not_mem_nil, or_false] at hm
    rcases hm with h | h | h | h <;>
      exact Bool.noConfusion (show true = false from congrArg startsWithDollar h)

/-- A string differs from itself with `"$"` prepended. -/

theorem ne_dollar_self (n : String) : n ≠ "$" ++ n := by
  intro h
  have h2 := congrArg (fun s => s.data.length) h
  simp [strData_append] at h2

/-- **C3.** For every parameter name in the reserved OData set (filter,
select, expand, orderby, skip, top, count, search, format, matched
case-insensitively), binding the same value under the name with or without
the leading `$` marker produces the identical outgoing query key: the
lowercased name with `$` re-added (`graph-tools.ts:106-135`). -/

theorem c3_odata_query_key (n : String) (v : Json) (sch : Option (Json → Bool))
    (toolPath : String)
    (hnd : startsWithDollar n = false) (hmem : toLowerStr n ∈ odataParams) :
    (bindParams [⟨n, ParamLoc.Query, sch⟩] toolPath [(n, v)]).queryParams
        = [("$" ++ toLowerStr n, jsStringOf v)]
    ∧ (bindParams [⟨n, ParamLoc.Query, sch⟩] toolPath [("$" ++ n, v)]).queryParams
        = [("$" ++ toLowerStr n, jsStringOf v)] := by
  have hcont : odataParams.contains (toLowerStr n) = true := by simpa using hmem
  constructor
  · show (bindStep [⟨n, ParamLoc.Query, sch⟩] ⟨toolPath, [], [], Json.null⟩ (n, v)).queryParams = _
    simp only [bindStep, controlParams_not_odata hmem, hnd, hcont, Bool.false_eq_true,
      if_false, if_true, List.find?, beq_self_eq_true, Bool.true_or, Bool.and_self]
    rfl
  · show (bindStep [⟨n, ParamLoc.Query, sch⟩] ⟨toolPath, [], [], Json.null⟩ ("$" ++ n, v)).queryParams = _
    have hsw : startsWithDollar ("$" ++ n) = true := rfl
    have hdrop : dropFirstChar ("$" ++ n) = n := rfl
    have hne : (n == "$" ++ n) = false := by
      simpa using ne_dollar_self n
    simp only [bindStep, controlParams_not_dollar n, hsw, hdrop, hcont, hne,
      Bool.false_eq_true, if_false, if_true, List.find?, beq_self_eq_true,
      Bool.false_or, Bool.true_and, Bool.and_self]
    rfl

/-- Witness for C3 at the concrete name `Top` and value `5`. -/

theorem c3_odata_query_key_witness :
    (bindParams [⟨"Top", ParamLoc.Query, none⟩] "/me/messages" [("Top", Json.num 5)]).queryParams
        = [("$top", "5")]
    ∧ (bindParams [⟨"Top", ParamLoc.Query, none⟩] "/me/messages" [("$Top", Json.num 5)]).queryParams
        = [("$top", "5")] := by
  have h := c3_odata_query_key "Top" (Json.num 5) none "/me/messages" rfl (by decide)
  exact h

/-- **C4.** When a Body-bound parameter value fails direct validation against
its declared schema but the wrapped form `{ <paramName>: value }` validates
successfully, the binder sends the wrapped form as the request body; if both
validations fail, the raw value is passed through unchanged
(`graph-tools.ts:138-157`). -/

theorem c4_body_wrap_recovery (n : String) (v : Json) (schema : Json → Bool)
    (toolPath : String) (hctrl : controlParams.contains n = false) :
    (schema v = false → schema (Json.obj [(n, v)]) = true →
      (bindParams [⟨n, ParamLoc.Body, some schema⟩] toolPath [(n, v)]).body
        = Json.obj [(n, v)])
    ∧ (schema v = false → schema (Json.obj [(n, v)]) = false →
      (bindParams [⟨n, ParamLoc.Body, some schema⟩] toolPath [(n, v)]).body = v) := by
  constructor
  · intro hdirect hwrap
    show (bindStep [⟨n, ParamLoc.Body, some schema⟩] ⟨toolPath, [], [], Json.null⟩ (n, v)).body = _
    simp only [bindStep, hctrl, Bool.false_eq_true, if_false, List.find?,
      beq_self_eq_true, Bool.true_or, hdirect, hwrap, if_true]
  · intro hdirect hwrap
    show (bindStep [⟨n, ParamLoc.Body, some schema⟩] ⟨toolPath, [], [], Json.null⟩ (n, v)).body = _
    simp only [bindStep, hctrl, Bool.false_eq_true, if_false, List.find?,
      beq_self_eq_true, Bool.true_or, hdirect, hwrap, if_true]

/-- Witness for C4: the raw string fails direct validation, the wrapped form
validates, and the binder emits the wrapped form; a failing value that also
fails wrapped is passed through raw. -/

theorem c4_body_wrap_recovery_witness :
    (bindParams [⟨"message", ParamLoc.Body, some schemaMessageObj⟩] "/send"
        [("message", Json.str "hi")]).body
      = Json.obj [("message", Json.str "hi")]
    ∧ (bindParams [⟨"message", ParamLoc.Body, some schemaMessageObj⟩] "/send"
        [("message", Json.num 3)]).body
      = Json.num 3 := by
  constructor
  · exact (c4_body_wrap_recovery "message" (Json.str "hi") schemaMessageObj "/send"
      (by decide)).1 rfl rfl
  · exact (c4_body_wrap_recovery "message" (Json.num 3) schemaMessageObj "/send"
      (by decide)).2 rfl rfl

/-- **C6.** For every invocation of the `execute-tool` dispatcher with an
operation name absent from the tools registry, the result is a failure
envelope (`isError` true) whose text names the missing operation
(`Tool not found: <name>`) and suggests the `search-tools` discovery call,
and no request is issued to the network collaborator
(`graph-tools.ts:567-585`). -/

theorem c6_unknown_operation
    (registry : List (String × (Endpoint × Option EndpointConfig)))
    (parse : String → Option Json)
    (graphRequest : String → ReqOptions → Except String (Option McpResponse))
    (toolName : String) (parameters : List (String × Json))
    (h : registryLookup registry toolName = none) :
    executeToolDispatch registry parse graphRequest toolName parameters =
      ({ content :=
           [OutBlock.text (some (jsonStringify (Json.obj
              [("error", Json.str ("Tool not found: " ++ toolName)),
               ("tip", Json.str "Use search-tools to find available tools.")])))],
         isError := some true }, []) := by
  simp only [executeToolDispatch, h]

/-- Witness for C6: an empty registry and the name `list-mail-messages`. -/

theorem c6_unknown_operation_witness :
    executeToolDispatch [] (fun _ => none) (fun _ _ => .error "unreachable")
        "list-mail-messages" [] =
      ({ content :=
           [OutBlock.text (some (jsonStringify (Json.obj
              [("error", Json.str ("Tool not found: " ++ "list-mail-messages")),
               ("tip", Json.str "Use search-tools to find available tools.")])))],
         isError := some true }, []) :=
  c6_unknown_operation [] (fun _ => none) (fun _ _ => .error "unreachable")
    "list-mail-messages" [] rfl

/-- **C9.** Every content block in a result returned by the generic
graph-tool executor has type `text`: on both the success path
(`graph-tools.ts:303-313`) and the error path (`graph-tools.ts:314-327`)
response content is mapped into text blocks, so the image, audio and
resource block shapes permitted by the declared result type are never
produced. -/

theorem c9_executor_blocks_are_text (tool : Endpoint) (config : Option EndpointConfig)
    (parse : String → Option Json)
    (graphRequest : String → ReqOptions → Except String (Option McpResponse))
    (params : List (String × Json)) :
    ∀ blk ∈ (executeGraphTool tool config parse graphRequest params).1.content,
      blk.isText = true := by
  intro blk hblk
  simp only [executeGraphTool] at hblk
  split at hblk
  · simp only [errorEnvelope, List.mem_singleton] at hblk
    subst hblk; rfl
  · split at hblk
    · simp only [errorEnvelope, List.mem_singleton] at hblk
      subst hblk; rfl
    · simp only [List.mem_map] at hblk
      obtain ⟨item, -, rfl⟩ := hblk
      rfl

/-- Witness for C9: a run whose transport fails still yields a text block. -/

theorem c9_executor_blocks_are_text_witness :
    OutBlock.isText (OutBlock.text (some (jsonStringify (Json.obj
      [("error", Json.str "Error in tool list-mail-messages: network down")])))) = true :=
  c9_executor_blocks_are_text
    ⟨"list-mail-messages", "get", "/me/messages", none, none, none⟩ none
    (fun _ => none) (fun _ _ => .error "network down") []
    (OutBlock.text (some (jsonStringify (Json.obj
      [("error", Json.str "Error in tool list-mail-messages: network down")]))))
    (by decide)

theorem assocGet_middle_ne {β : Type} (pre post : List (String × β)) (k k' : String)
    (v : β) (h : (k == k') = false) :
    assocGet (pre ++ (k, v) :: post) k' = assocGet (pre ++ post) k' := by
  induction pre with
  | nil => simp [assocGet, h]
  | cons hd tl ih =>
    cases hd with
    | mk k1 v1 =>
      simp only [List.cons_append, assocGet]
      split <;> simp [ih]

theorem assocGet_not_mem {β : Type} (l : List (String × β)) (k : String)
    (h : k ∉ l.map Prod.fst) : assocGet l k = none := by
  induction l with
  | nil => rfl
  | cons hd tl ih =>
    simp only [List.map_cons, List.mem_cons] at h
    push_neg at h
    cases hd with
    | mk k1 v1 =>
      have hne : (k1 == k) = false := beq_eq_false_iff_ne.mpr (Ne.symm h.1)
      simp [assocGet, hne, ih h.2]

theorem assocGet_middle_self {β : Type} (pre post : List (String × β)) (k : String)
    (v : β) (h : k ∉ pre.map Prod.fst) :
    assocGet (pre ++ (k, v) :: post) k = some v := by
  induction pre with
  | nil => simp [assocGet]
  | cons hd tl ih =>
    simp only [List.map_cons, List.mem_cons] at h
    push_neg at h
    cases hd with
    | mk k1 v1 =>
      have hne : (k1 == k) = false := beq_eq_false_iff_ne.mpr (Ne.symm h.1)
      simp [assocGet, hne, ih h.2]

/-- The binding loop ignores an entry whose name is a reserved control key. -/

theorem foldl_bindStep_control (pre post : List (String × Json)) (k : String)
    (v : Json) (hk : controlParams.contains k = true)
    (defs : List ParamDef) (acc : BindResult) :
    List.foldl (bindStep defs) acc (pre ++ (k, v) :: post)
      = List.foldl (bindStep defs) acc (pre ++ post) := by
  rw [List.foldl_append, List.foldl_append, List.foldl_cons]
  have hskip : bindStep defs (List.foldl (bindStep defs) acc pre) (k, v)
      = List.foldl (bindStep defs) acc pre := by
    simp only [bindStep]
    exact if_pos hk
  rw [hskip]

theorem isJsTrue_of_ne_true {v : Json} (h : v ≠ Json.bool true) :
    isJsTrue (some v) = false := by
  cases v with
  | bool b =>
    cases b with
    | false => rfl
    | true => exact absurd rfl h
  | null => rfl
  | num n => rfl
  | str s => rfl
  | arr xs => rfl
  | obj fs => rfl

/-- **C10.** The reserved control keys `fetchAllPages`, `includeHeaders` and
`excludeResponse` take effect only when their value is exactly the boolean
`true`: a supplied value of any other shape (for example the string
`"true"`) is still stripped from the outgoing request but does not enable
pagination, header capture, or body exclusion — the invocation behaves
exactly as if the entry were absent (`graph-tools.ts:98-102,219-232`). -/

theorem c10_control_keys_require_true (tool : Endpoint) (config : Option EndpointConfig)
    (parse : String → Option Json)
    (graphRequest : String → ReqOptions → Except String (Option McpResponse))
    (pre post : List (String × Json)) (k : String) (v : Json)
    (hk : k ∈ (["fetchAllPages", "includeHeaders", "excludeResponse"] : List String))
    (hv : v ≠ Json.bool true)
    (hnd : ((pre ++ (k, v) :: post).map Prod.fst).Nodup) :
    executeGraphTool tool config parse graphRequest (pre ++ (k, v) :: post)
      = executeGraphTool tool config parse graphRequest (pre ++ post) := by
  have hctrl : controlParams.contains k = true := by
    fin_cases hk <;> decide
  rw [List.map_append, List.map_cons, List.nodup_append] at hnd
  obtain ⟨-, hnd2, hdisj⟩ := hnd
  have hkpost : k ∉ post.map Prod.fst := (List.nodup_cons.mp hnd2).1
  have hkpre : k ∉ pre.map Prod.fst := by
    intro hmem
    exact absurd (List.mem_cons_self k _) (hdisj hmem)
  have hkboth : k ∉ (pre ++ post).map Prod.fst := by
    rw [List.map_append, List.mem_append]
    rintro (h | h)
    · exact hkpre h
    · exact hkpost h
  have hget : ∀ r : String, isJsTrue (assocGet (pre ++ (k, v) :: post) r)
      = isJsTrue (assocGet (pre ++ post) r) := by
    intro r
    by_cases hr : k = r
    · subst hr
      rw [assocGet_middle_self pre post k v hkpre, assocGet_not_mem _ _ hkboth,
        isJsTrue_of_ne_true hv]
      rfl
    · rw [assocGet_middle_ne pre post k r v (beq_eq_false_iff_ne.mpr hr)]
  have htz : assocGet (pre ++ (k, v) :: post) "timezone"
      = assocGet (pre ++ post) "timezone" := by
    refine assocGet_middle_ne pre post k "timezone" v (beq_eq_false_iff_ne.mpr ?_)
    fin_cases hk <;> decide
  simp only [executeGraphTool, bindParams]
  simp only [foldl_bindStep_control pre post k v hctrl, htz, hget]

/-- Witness for C10: supplying `includeHeaders` as the string `"true"` leaves
the invocation identical to one without the entry. -/

theorem c10_control_keys_require_true_witness :
    executeGraphTool ⟨"list-mail-messages", "get", "/me/messages", none, none, none⟩
        none (fun _ => none) (fun _ _ => .error "unreachable")
        [("includeHeaders", Json.str "true")]
      = executeGraphTool ⟨"list-mail-messages", "get", "/me/messages", none, none, none⟩
        none (fun _ => none) (fun _ _ => .error "unreachable") [] :=
  c10_control_keys_require_true
    ⟨"list-mail-messages", "get", "/me/messages", none, none, none⟩ none
    (fun _ => none) (fun _ _ => .error "unreachable") [] []
    "includeHeaders" (Json.str "true") (by decide)
    (fun h => Json.noConfusion h) (by decide)

/-- Each loop iteration issues at most one follow-up request and consumes one
unit of fuel. -/

theorem pageLoop_followUps_length (parse : String → Option Json)
    (graphRequest : String → ReqOptions → Except String (Option McpResponse))
    (options : ReqOptions) :
    ∀ fuel nl allItems pageCount fus,
      (pageLoop parse graphRequest options fuel nl allItems pageCount fus).followUps.length
        ≤ fus.length + fuel := by
  intro fuel
  induction fuel with
  | zero => intro nl aI pc fus; simp [pageLoop]
  | succ f ih =>
    intro nl aI pc fus
    simp only [pageLoop]
    split
    · split
      · simp
      · split
        · simp only [List.length_append, List.length_cons, List.length_nil]
          omega
        · split
          · simp only [List.length_append, List.length_cons, List.length_nil]
            omega
          · split
            · simp only [List.length_append, List.length_cons, List.length_nil]
              omega
            · split
              · simp only [List.length_append, List.length_cons, List.length_nil]
                omega
              · split
                · split
                  · split
                    · simp only [List.length_append, List.length_cons, List.length_nil]
                      omega
                    · exact (ih _ _ _ _).trans
                        (by simp only [List.length_append, List.length_cons,
                              List.length_nil]; omega)
                  · exact (ih _ _ _ _).trans
                      (by simp only [List.length_append, List.length_cons,
                            List.length_nil]; omega)
                · exact (ih _ _ _ _).trans
                    (by simp only [List.length_append, List.length_cons,
                          List.length_nil]; omega)
    · simp

/-- The loop issues nothing and exits at once when the cursor is absent or
falsy. -/

theorem pageLoop_stop_no_cursor (parse : String → Option Json)
    (graphRequest : String → ReqOptions → Except String (Option McpResponse))
    (options : ReqOptions) (fuel : Nat) (nl : Option Json) (allItems : Json)
    (pageCount : Nat) (fus : List IssuedRequest) (h : jTruthyOpt nl = false) :
    pageLoop parse graphRequest options fuel nl allItems pageCount fus
      = ⟨allItems, nl, pageCount, fus, false⟩ := by
  cases fuel <;> simp [pageLoop, h]

/-- The loop issues nothing and exits at once when the page cap is reached. -/

theorem pageLoop_stop_cap (parse : String → Option Json)
    (graphRequest : String → ReqOptions → Except String (Option McpResponse))
    (options : ReqOptions) (fuel : Nat) (nl : Option Json) (allItems : Json)
    (pageCount : Nat) (fus : List IssuedRequest) (h : 100 ≤ pageCount) :
    pageLoop parse graphRequest options fuel nl allItems pageCount fus
      = ⟨allItems, nl, pageCount, fus, false⟩ := by
  have hlt : ¬(pageCount < 100) := by omega
  cases fuel <;> simp [pageLoop, hlt]

/-- **C2.** For every fetch-all-pages invocation, the pagination loop
terminates (it is a total function of its fuel, initialized so that the
`pageCount < 100` guard is the binding bound) and never issues more than 100
follow-up requests, regardless of how many continuation cursors the external
API keeps returning; and it stops at once when a page carries no (truthy)
cursor or when the page cap is reached — the state in which the cap warning
of `graph-tools.ts:266-268` fires (`graph-tools.ts:236-268`). -/

theorem c2_pagination_bounded (fetchAllPages : Bool) (parse : String → Option Json)
    (graphRequest : String → ReqOptions → Except String (Option McpResponse))
    (options : ReqOptions) (response : Option McpResponse) :
    (applyFetchAllPages fetchAllPages parse graphRequest options response).followUps.length
        ≤ 100
    ∧ (∀ fuel nl allItems pageCount fus, jTruthyOpt nl = false →
        pageLoop parse graphRequest options fuel nl allItems pageCount fus
          = ⟨allItems, nl, pageCount, fus, false⟩)
    ∧ (∀ fuel nl allItems pageCount fus, 100 ≤ pageCount →
        pageLoop parse graphRequest options fuel nl allItems pageCount fus
          = ⟨allItems, nl, pageCount, fus, false⟩) := by
  refine ⟨?_, ?_, ?_⟩
  · simp only [applyFetchAllPages]
    split
    · split
      · simp
      · split
        · simp
        · split
          · exact (pageLoop_followUps_length parse graphRequest options 99 _ _ _ _).trans
              (by simp)
          · split
            · exact (pageLoop_followUps_length parse graphRequest options 99 _ _ _ _).trans
                (by simp)
            · split
              · exact (pageLoop_followUps_length parse graphRequest options 99 _ _ _ _).trans
                  (by simp)
              · exact (pageLoop_followUps_length parse graphRequest options 99 _ _ _ _).trans
                  (by simp)
    · simp
  · intro fuel nl allItems pageCount fus h
    exact pageLoop_stop_no_cursor parse graphRequest options fuel nl allItems pageCount fus h
  · intro fuel nl allItems pageCount fus h
    exact pageLoop_stop_cap parse graphRequest options fuel nl allItems pageCount fus h

/-- Witness for C2 at a concrete invocation and a concrete cursorless loop
state. -/

theorem c2_pagination_bounded_witness :
    (applyFetchAllPages true (fun _ => none) (fun _ _ => .error "x") optsGET
        (some { content := [{ text := some "p" }] })).followUps.length ≤ 100
    ∧ pageLoop (fun _ => none) (fun _ _ => .error "x") optsGET 42 none (Json.arr []) 1 []
        = ⟨Json.arr [], none, 1, [], false⟩
    ∧ pageLoop (fun _ => none) (fun _ _ => .error "x") optsGET 42
        (some (Json.str "https://g.example/v1.0/a")) (Json.arr []) 100 []
        = ⟨Json.arr [], some (Json.str "https://g.example/v1.0/a"), 100, [], false⟩ :=
  ⟨(c2_pagination_bounded true (fun _ => none) (fun _ _ => .error "x") optsGET
      (some { content := [{ text := some "p" }] })).1,
   (c2_pagination_bounded true (fun _ => none) (fun _ _ => .error "x") optsGET
      (some { content := [{ text := some "p" }] })).2.1 42 none (Json.arr []) 1 [] rfl,
   (c2_pagination_bounded true (fun _ => none) (fun _ _ => .error "x") optsGET
      (some { content := [{ text := some "p" }] })).2.2 42
      (some (Json.str "https://g.example/v1.0/a")) (Json.arr []) 100 []
      (by omega)⟩

/-- **C1 counterexample.**  With first page `q1` (item `1`, cursor `/a`),
follow-up page `q2` (item `2`, cursor `/b`) and an unparsable `/b` response,
the loop had already merged item `2` when the parse exception hit — yet the
returned payload is the original first page `q1`, whose item array is `[1]`
and whose cursor is still present.  The claim that such an invocation
"returns everything accumulated up to the last successfully merged page"
and that "already-fetched follow-up pages are never discarded from the
returned payload" is therefore false on the code: the catch at
`graph-tools.ts:281` skips the write-back at line 276. -/

theorem c1_counterexample :
    (pageLoop c1parse c1req optsGET 99
        (some (Json.str "https://g.example/v1.0/a?x=1"))
        (Json.arr [Json.num 1]) 1 []).allItems
      = Json.arr [Json.num 1, Json.num 2]
    ∧ (applyFetchAllPages true c1parse c1req optsGET c1resp).response = c1resp
    ∧ respFirstText ((applyFetchAllPages true c1parse c1req optsGET c1resp).response)
      = some "q1"
    ∧ c1parse "q1" = some (Json.obj [("value", Json.arr [Json.num 1]),
        ("@odata.nextLink", Json.str "https://g.example/v1.0/a?x=1")]) :=
  ⟨rfl, rfl, rfl, rfl⟩

/-- **C1 (amended).** For every fetch-all-pages invocation whose first page
parses, if a parse or request exception occurs mid-loop during pagination,
the invocation still succeeds (the pagination failure is swallowed by the
catch at `graph-tools.ts:281`, leaving the response's success/error status
untouched), but the returned payload is the first page unchanged — the
already-merged follow-up pages are discarded, not preserved.  (Only when a
follow-up response merely lacks text content does the loop `break` and keep
the accumulation.) -/

theorem c1_amended_midloop_error_returns_first_page
    (parse : String → Option Json)
    (graphRequest : String → ReqOptions → Except String (Option McpResponse))
    (options : ReqOptions) (response : Option McpResponse)
    (text : String) (combined : Json)
    (h1 : respFirstText response = some text) (h2 : strEmpty text = false)
    (h3 : parse text = some combined)
    (h4 : (pageLoop parse graphRequest options 99 (jGet combined "@odata.nextLink")
            (initialItems combined) 1 []).threw = true) :
    (applyFetchAllPages true parse graphRequest options response).response = response
    ∧ (applyFetchAllPages true parse graphRequest options response).threw = true := by
  simp only [applyFetchAllPages, h1, h2, h3, h4, Bool.false_eq_true, if_false, if_true]
  constructor <;> trivial

/-- Witness for the amended C1 at the concrete three-page run. -/

theorem c1_amended_witness :
    (applyFetchAllPages true c1parse c1req optsGET c1resp).response = c1resp
    ∧ (applyFetchAllPages true c1parse c1req optsGET c1resp).threw = true :=
  c1_amended_midloop_error_returns_first_page c1parse c1req optsGET c1resp "q1"
    (Json.obj [("value", Json.arr [Json.num 1]),
               ("@odata.nextLink", Json.str "https://g.example/v1.0/a?x=1")])
    rfl rfl rfl rfl

/-- Running the loop against an oracle that serves a clean chain merges
exactly the concatenation of the pages' item arrays, increments the page
counter once per page, issues exactly the chain's follow-up requests, and
never reaches the catch. -/

theorem pageLoop_chain (parse : String → Option Json)
    (graphRequest : String → ReqOptions → Except String (Option McpResponse))
    (options : ReqOptions) :
    ∀ (pages : List Json) (fuel : Nat) (nl : Option Json) (items : List Json)
      (pageCount : Nat) (fus : List IssuedRequest),
      ServesChain parse graphRequest options nl pages →
      pages.length ≤ fuel →
      pageCount + pages.length ≤ 100 →
      pageLoop parse graphRequest options fuel nl (Json.arr items) pageCount fus =
        ⟨Json.arr (items ++ pages.flatMap pageContrib),
         chainLastLink nl pages,
         pageCount + pages.length,
         fus ++ chainFollowUps options nl pages,
         false⟩ := by
  intro pages
  induction pages with
  | nil =>
    intro fuel nl items pc fus hch _ _
    simp only [ServesChain] at hch
    rw [pageLoop_stop_no_cursor parse graphRequest options fuel nl (Json.arr items) pc fus hch]
    simp [chainLastLink, chainFollowUps]
  | cons page rest ih =>
    intro fuel nl items pc fus hch hfuel hcap
    simp only [ServesChain] at hch
    obtain ⟨htr, url, nextResponse, text, hurl, hreq, htext, hne, hparse, hchr⟩ := hch
    cases fuel with
    | zero => simp at hfuel
    | succ f =>
      have hguard : (jTruthyOpt nl && decide (pc < 100)) = true := by
        rw [htr]
        simp only [Bool.true_and, decide_eq_true_eq]
        simp only [List.length_cons] at hcap
        omega
      have hfuel2 : rest.length ≤ f := by
        simp only [List.length_cons] at hfuel; omega
      have hcap2 : (pc + 1) + rest.length ≤ 100 := by
        simp only [List.length_cons] at hcap; omega
      simp only [pageLoop, hguard, if_true, hurl, hreq, htext, hne,
        Bool.false_eq_true, if_false, hparse]
      cases hval : jGet page "value" with
      | none =>
        simp only [hval]
        rw [ih f _ items (pc + 1) _ hchr hfuel2 hcap2]
        simp [chainLastLink, chainFollowUps, hurl, pageContrib, hval,
          LoopResult.mk.injEq, List.append_assoc] <;> omega
      | some v =>
        cases htv : (jTruthy v && jIsArr v) with
        | false =>
          simp only [hval, htv, Bool.false_eq_true, if_false]
          rw [ih f _ items (pc + 1) _ hchr hfuel2 hcap2]
          simp [chainLastLink, chainFollowUps, hurl, pageContrib, hval, htv,
            LoopResult.mk.injEq, List.append_assoc] <;> omega
        | true =>
          simp only [hval, htv, if_true, jsConcat]
          rw [ih f _ (items ++ jArrElems v) (pc + 1) _ hchr hfuel2 hcap2]
          simp [chainLastLink, chainFollowUps, hurl, pageContrib, hval, htv,
            LoopResult.mk.injEq, List.append_assoc] <;> omega

/-- **C5 (amended).** On a completed fetch-all-pages aggregation (first page
an object that parses, every follow-up served cleanly, cap not reached),
the returned body equals the first page's JSON with its item array
(`value`) replaced by the concatenation of all pages' item arrays, its
count field (`@odata.count`) updated to the accumulated item count
*provided the existing count value is truthy* (a count of `0` is left
unchanged), and its continuation-cursor field (`@odata.nextLink`) removed
(`graph-tools.ts:270-276`). -/

theorem c5_amended_aggregate_body (parse : String → Option Json)
    (graphRequest : String → ReqOptions → Except String (Option McpResponse))
    (options : ReqOptions) (response : Option McpResponse) (text : String)
    (fs : List (String × Json)) (items0 : List Json) (pages : List Json)
    (h1 : respFirstText response = some text) (h2 : strEmpty text = false)
    (h3 : parse text = some (Json.obj fs))
    (h4 : initialItems (Json.obj fs) = Json.arr items0)
    (h5 : ServesChain parse graphRequest options
            (jGet (Json.obj fs) "@odata.nextLink") pages)
    (h6 : pages.length ≤ 99) :
    applyFetchAllPages true parse graphRequest options response =
      ⟨setFirstText response (jsonStringify (Json.obj
          (finalizeFields fs (items0 ++ pages.flatMap pageContrib)))),
       chainFollowUps options (jGet (Json.obj fs) "@odata.nextLink") pages,
       decide (100 ≤ 1 + pages.length),
       false⟩ := by
  have hloop := pageLoop_chain parse graphRequest options pages 99
    (jGet (Json.obj fs) "@odata.nextLink") items0 1 [] h5 (by omega) (by omega)
  simp only [jGet] at hloop
  simp only [applyFetchAllPages, h1, h2, h3, Bool.false_eq_true, if_false, if_true, h4,
    jGet, hloop, setField, finalizeFields]
  cases hcond : jTruthyOpt (assocGet
      (assocSet fs "value" (Json.arr (items0 ++ pages.flatMap pageContrib)))
      "@odata.count") with
  | false =>
    simp only [hcond, Bool.false_eq_true, if_false, jDeleteField, List.nil_append]
  | true =>
    simp only [hcond, if_true, setCountField, setField, jDeleteField, List.nil_append]

/-- **C5 counterexample.**  On the completed two-page aggregation whose first
page has `"@odata.count": 0`, the returned body keeps the count at `0`
(the `if (combinedResponse['@odata.count'])` guard at `graph-tools.ts:271`
skips falsy counts), while the claim demands the count be updated to the
accumulated item count `2`. -/

theorem c5_counterexample :
    respFirstText ((applyFetchAllPages true c5parse c5req optsGET c5resp).response)
      = some (jsonStringify (Json.obj [("@odata.count", Json.num 0),
          ("value", Json.arr [Json.num 1, Json.num 2])]))
    ∧ jsonStringify (Json.obj (claimedAggregateFields
        [("@odata.count", Json.num 0), ("value", Json.arr [Json.num 1]),
         ("@odata.nextLink", Json.str "https://g.example/v1.0/a?x=1")]
        [Json.num 1, Json.num 2]))
      = jsonStringify (Json.obj [("@odata.count", Json.num 2),
          ("value", Json.arr [Json.num 1, Json.num 2])])
    ∧ jsonStringify (Json.obj [("@odata.count", Json.num 0),
          ("value", Json.arr [Json.num 1, Json.num 2])])
      ≠ jsonStringify (Json.obj [("@odata.count", Json.num 2),
          ("value", Json.arr [Json.num 1, Json.num 2])]) :=
  ⟨rfl, rfl, by decide⟩

/-- Witness for the amended C5 at the concrete two-page run. -/

theorem c5_amended_witness :
    applyFetchAllPages true c5parse c5req optsGET c5resp =
      ⟨setFirstText c5resp (jsonStringify (Json.obj
          (finalizeFields
            [("@odata.count", Json.num 0), ("value", Json.arr [Json.num 1]),
             ("@odata.nextLink", Json.str "https://g.example/v1.0/a?x=1")]
            ([Json.num 1] ++ [Json.obj [("value", Json.arr [Json.num 2])]].flatMap pageContrib)))),
       chainFollowUps optsGET
         (jGet (Json.obj
            [("@odata.count", Json.num 0), ("value", Json.arr [Json.num 1]),
             ("@odata.nextLink", Json.str "https://g.example/v1.0/a?x=1")])
           "@odata.nextLink")
         [Json.obj [("value", Json.arr [Json.num 2])]],
       decide (100 ≤ 1 + [Json.obj [("value", Json.arr [Json.num 2])]].length),
       false⟩ :=
  c5_amended_aggregate_body c5parse c5req optsGET c5resp "p1"
    [("@odata.count", Json.num 0), ("value", Json.arr [Json.num 1]),
     ("@odata.nextLink", Json.str "https://g.example/v1.0/a?x=1")]
    [Json.num 1] [Json.obj [("value", Json.arr [Json.num 2])]]
    rfl rfl rfl rfl
    ⟨rfl, ⟨"/v1.0/a", [("x", "1")]⟩, some { content := [{ text := some "p2" }] }, "p2",
      rfl, rfl, rfl, rfl, rfl, rfl⟩
    (by simp)

/-- Where the cursor's path does begin with the version prefix, removing the
first occurrence coincides with stripping the prefix. -/

theorem replaceFirst_eq_stripVersionLead (p : String)
    (h : "/v1.0".data.isPrefixOf p.data = true) :
    replaceFirst p "/v1.0" "" = stripVersionLead p := by
  unfold replaceFirst stripVersionLead replaceFirstAux
  rw [h]
  cases hp : p.data with
  | nil => rw [hp] at h; simp [List.isPrefixOf] at h
  | cons c cs =>
    rw [hp] at h
    simp only [h, if_true]
    rfl

/-- Every request the pagination loop issues has the follow-up shape. -/

theorem pageLoop_followUps_shape (parse : String → Option Json)
    (graphRequest : String → ReqOptions → Except String (Option McpResponse))
    (options : ReqOptions) :
    ∀ fuel nl allItems pageCount fus,
      (∀ fu ∈ fus, followUpShaped options fu) →
      ∀ fu ∈ (pageLoop parse graphRequest options fuel nl allItems pageCount fus).followUps,
        followUpShaped options fu := by
  intro fuel
  induction fuel with
  | zero =>
    intro nl aI pc fus h
    simpa [pageLoop] using h
  | succ f ih =>
    intro nl aI pc fus h
    simp only [pageLoop]
    split
    · rename_i hguard
      have hnl : ∃ link : Json, nl = some link ∧ jTruthy link = true := by
        cases nl with
        | none => simp [jTruthyOpt] at hguard
        | some link =>
          refine ⟨link, rfl, ?_⟩
          simp only [Bool.and_eq_true, jTruthyOpt] at hguard
          exact hguard.1
      obtain ⟨link, rfl, -⟩ := hnl
      split
      · exact fun fu hfu => h fu hfu
      · rename_i url hurl
        have hshape : followUpShaped options
            ⟨replaceFirst url.pathname "/v1.0" "",
             { options with queryParams := some url.searchParams }⟩ :=
          ⟨link, url, hurl, rfl, rfl⟩
        have hext : ∀ fu ∈ fus ++ [(⟨replaceFirst url.pathname "/v1.0" "",
            { options with queryParams := some url.searchParams }⟩ : IssuedRequest)],
            followUpShaped options fu := by
          intro fu hfu
          rcases List.mem_append.mp hfu with h1 | h1
          · exact h fu h1
          · rw [List.mem_singleton] at h1
            subst h1
            exact hshape
        repeat' split
        all_goals
          first
          | exact ih _ _ _ _ hext
          | exact fun fu hfu => hext fu hfu
    · exact fun fu hfu => h fu hfu

/-- **C8 (amended).** Every pagination follow-up request is issued to the
continuation URL's path with the *first occurrence* of `/v1.0` removed —
which coincides with stripping the versioned path prefix whenever the path
begins with it (`replaceFirst_eq_stripVersionLead`), but differs when
`/v1.0` first occurs later in the path — and with the query parameters
taken from the cursor URL, replacing the original invocation's query
parameters (`graph-tools.ts:243-253`). -/

theorem c8_amended_followup_requests (fetchAllPages : Bool)
    (parse : String → Option Json)
    (graphRequest : String → ReqOptions → Except String (Option McpResponse))
    (options : ReqOptions) (response : Option McpResponse) :
    ∀ fu ∈ (applyFetchAllPages fetchAllPages parse graphRequest options response).followUps,
      followUpShaped options fu := by
  simp only [applyFetchAllPages]
  repeat' split
  all_goals
    first
    | exact fun fu hfu =>
        pageLoop_followUps_shape parse graphRequest options 99 _ _ _ []
          (by simp) fu hfu
    | simp

/-- **C8 counterexample.**  For the cursor
`https://g.example/a/v1.0/b?x=1`, whose path `/a/v1.0/b` does not *begin*
with `/v1.0`, the code removes the first occurrence anywhere
(`pathname.replace('/v1.0', '')`, `graph-tools.ts:244`) and issues the
follow-up to `/a/b`, whereas stripping a versioned path *prefix* would
leave `/a/v1.0/b` unchanged. -/

theorem c8_counterexample :
    (applyFetchAllPages true c8parse c8req optsGET c8resp).followUps.map IssuedRequest.path
      = ["/a/b"]
    ∧ parseURL "https://g.example/a/v1.0/b?x=1" = some ⟨"/a/v1.0/b", [("x", "1")]⟩
    ∧ stripVersionLead "/a/v1.0/b" = "/a/v1.0/b"
    ∧ ("/a/b" : String) ≠ "/a/v1.0/b" :=
  ⟨rfl, rfl, rfl, by decide⟩

/-- Witness for the amended C8 at the concrete run. -/

theorem c8_amended_witness :
    followUpShaped optsGET
      ⟨"/a/b", { optsGET with queryParams := some [("x", "1")] }⟩ :=
  c8_amended_followup_requests true c8parse c8req optsGET c8resp
    ⟨"/a/b", { optsGET with queryParams := some [("x", "1")] }⟩ (by decide)

theorem findFirstMatch_none (q : String) (l : List Json)
    (h : ∀ e ∈ l, evalSubjectMatch q e = .ok false) :
    findFirstMatch q l = .ok none := by
  induction l with
  | nil => rfl
  | cons e es ih =>
    have he := h e (List.mem_cons_self e es)
    simp only [findFirstMatch, he]
    exact ih fun x hx => h x (List.mem_cons_of_mem e hx)

/-- A member of a joined list is an infix of the join. -/

theorem mem_joinSep_infix (sep : String) (l : List String) (x : String)
    (hx : x ∈ l) : x.data <:+: (joinSep sep l).data := by
  induction l with
  | nil => cases hx
  | cons a t ih =>
    cases t with
    | nil =>
      rw [List.mem_singleton] at hx
      subst hx
      exact List.infix_rfl
    | cons b t2 =>
      rcases List.mem_cons.mp hx with rfl | hmem
      · exact ⟨[], sep.data ++ (joinSep sep (b :: t2)).data,
          by simp [joinSep, strData_append, List.append_assoc]⟩
      · exact (ih hmem).trans ⟨(a ++ sep).data, [],
          by simp [joinSep, strData_append, List.append_assoc]⟩

/-- A listing that begins with a meeting line is never the empty string. -/

theorem strEmpty_joinSep_meetingLine (sep : String) (e : Json) (ls : List String) :
    strEmpty (joinSep sep (meetingLine e :: ls)) = false := by
  cases ls with
  | nil => rfl
  | cons b t => rfl

theorem infix_strAppend_right (x a b : String) (h : x.data <:+: b.data) :
    x.data <:+: (a ++ b).data := by
  rw [strData_append]
  exact h.trans (List.suffix_append a.data b.data).isInfix

/-- **C7.** Whenever the composite workflow finds events on the requested day
but no online meeting whose subject contains the search text
(case-insensitive substring, evaluated as `composite-tools.ts:129-132`), it
returns a failure envelope (`isError` true) whose text is the "no subject
match" diagnostic, which lists every online meeting found that day — each
rendered with its subject and start time (`- ${e.subject}
(${e.start?.dateTime})`) and appearing verbatim inside the text
(`composite-tools.ts:134-147`). -/

theorem c7_no_match_lists_meetings
    (makeRequest : String → List (String × String) → Except String Json)
    (params : TranscriptParams) (cal : Json) (evs : List Json)
    (hcal : makeRequest (calendarPathOf params) (calendarHeadersOf params) = .ok cal)
    (hval : jGet cal "value" = some (Json.arr evs))
    (hne : evs ≠ [])
    (hnm : ∀ e ∈ evs, evalSubjectMatch params.subjectContains e = .ok false) :
    getTranscriptByMeeting makeRequest params
      = textResult (noMatchText params.subjectContains params.date evs) true
    ∧ ∀ e ∈ evs, jTruthyOpt (jGet e "isOnlineMeeting") = true →
        (meetingLine e).data <:+:
          (noMatchText params.subjectContains params.date evs).data := by
  constructor
  · have hlen : jsLengthIsZero (Json.arr evs) = false := by
      cases evs with
      | nil => exact absurd rfl hne
      | cons a t => rfl
    simp only [getTranscriptByMeeting, hcal, hval, jTruthy, if_true, hlen,
      Bool.false_eq_true, if_false, jsFindMatch,
      findFirstMatch_none params.subjectContains evs hnm, jArrElems]
  · intro e he honline
    have hmem : meetingLine e ∈ (onlineMeetingsOf evs).map meetingLine :=
      List.mem_map_of_mem meetingLine (by
        simp only [onlineMeetingsOf, List.mem_filter]
        exact ⟨he, honline⟩)
    have hinf := mem_joinSep_infix "\n" _ _ hmem
    have hjoin : ∃ m ls,
        (onlineMeetingsOf evs).map meetingLine = meetingLine m :: ls := by
      cases hfm : onlineMeetingsOf evs with
      | nil =>
        exfalso
        have hmem2 : e ∈ onlineMeetingsOf evs := by
          simp only [onlineMeetingsOf, List.mem_filter]
          exact ⟨he, honline⟩
        rw [hfm] at hmem2
        exact absurd hmem2 (List.not_mem_nil e)
      | cons m ms => exact ⟨m, ms.map meetingLine, by simp [hfm]⟩
    obtain ⟨m, ls, hml⟩ := hjoin
    have hnonempty :
        strEmpty (joinSep "\n" ((onlineMeetingsOf evs).map meetingLine)) = false := by
      rw [hml]
      exact strEmpty_joinSep_meetingLine "\n" m ls
    simp only [noMatchText, hnonempty, Bool.false_eq_true, if_false]
    exact infix_strAppend_right _ _ _ hinf

/-- Witness for C7: two online meetings that day, no subject match — both
meetings' lines appear in the failure text. -/

theorem c7_no_match_lists_meetings_witness :
    getTranscriptByMeeting c7client c7params
      = textResult (noMatchText "nonexistent" "2026-01-16" [c7event1, c7event2]) true
    ∧ ∀ e ∈ [c7event1, c7event2], jTruthyOpt (jGet e "isOnlineMeeting") = true →
        (meetingLine e).data <:+:
          (noMatchText "nonexistent" "2026-01-16" [c7event1, c7event2]).data :=
  c7_no_match_lists_meetings c7client c7params c7cal [c7event1, c7event2] rfl rfl
    (by simp)
    (by
      intro e he
      simp only [List.mem_cons, List.not_mem_nil, or_false] at he
      rcases he with rfl | rfl <;> rfl)
